import Mathlib

/-
Verification of the per-item ingestion pipeline of
scripts/flows/houston/read_excel.py (RecoveryAPP/recovery-ingestion).

The Python code is shallowly embedded as follows.

Values that flow through record fields are modelled by `PyVal`: the
issue rows and newspaper rows are JSON objects whose fields are strings,
null, or (after splitting) lists of strings.  Python truthiness on these
values is `pyTruthy`.

Python dictionaries are modelled as binding lists in which a later
binding shadows an earlier one (`aget?` scans the tail first).  Under
this reading, dictionary assignment `d[k] = v` is exactly appending the
binding `(k, v)` (`aset`), and the semantics of lookup, membership and
overwrite agree with CPython dictionaries extensionally.

Network and storage effects are modelled by an explicit environment
`Env` (the bucket listing, its pagination boundary, the outcome of each
remote call) and an event trace (`Event`): each remote call made by the
orchestrator appends one event.  `requests.post(...).raise_for_status()`
is modelled by emitting the call event and then, on a non-2xx outcome,
aborting the remainder of the record (the Python exception propagates
out of the flow).
-/

namespace Houston

/-- A Python value stored in a record field: `None`, a string, or a list
of strings (the only list values this pipeline produces). -/
inductive PyVal where
  | pnone : PyVal
  | pstr : String → PyVal
  | plist : List String → PyVal
deriving DecidableEq, Repr

/-- Python truthiness of a `PyVal`: `None`, the empty string and the
empty list are falsy, everything else is truthy. -/
def pyTruthy : PyVal → Bool
  | .pnone => false
  | .pstr s => !(s == "")
  | .plist xs => !xs.isEmpty

/-- A Python dict with string keys (issue rows, newspaper rows, the
normalized asset). Later bindings shadow earlier ones. -/
abbrev PyDict := List (String × PyVal)

/-- Python dict lookup `d.get(k)` returning `none` when the key is
absent.  The latest binding wins, matching assignment-as-append. -/
def aget? {κ α : Type} [DecidableEq κ] : List (κ × α) → κ → Option α
  | [], _ => none
  | (k, v) :: rest, key =>
    match aget? rest key with
    | some w => some w
    | none => if k = key then some v else none

/-- Python dict assignment `d[k] = v`, modelled as appending a binding
that shadows any earlier binding of `k`. -/
def aset (d : PyDict) (k : String) (v : PyVal) : PyDict := d ++ [(k, v)]

/-- `item.get(k)` on a record of `PyVal` fields: absent keys give
Python `None`. -/
def itemGet (item : PyDict) (k : String) : PyVal := (aget? item k).getD .pnone

/-- The keys present in a dict, in binding order. -/
def keysOf (d : PyDict) : List String := d.map Prod.fst

/-- Truthiness of an `Optional[List[str]]` value (`None` and `[]` are
falsy). -/
def optTruthy : Option (List String) → Bool
  | none => false
  | some l => !l.isEmpty

/-- True when every field of the record is a string or `None` — the
shape of a row of the tabular source data (spec section 3: attributes
are all optional strings).  The embedding is faithful on such rows. -/
def strLike : PyVal → Bool
  | .pnone => true
  | .pstr _ => true
  | .plist _ => false

/-- All fields of the record are string-or-`None` valued. -/
def strRec (item : PyDict) : Bool := item.all (fun p => strLike p.2)

/-- The whitespace characters stripped by Python `str.strip()`. -/
def pyIsSpace (c : Char) : Bool :=
  c = ' ' || c = '\t' || c = '\n' || c = '\r' || c = '\x0b' || c = '\x0c'

/-- Python `s.split(sep)` over the character list of `s`: splitting the
empty string gives one empty segment, and adjacent separators give
empty segments, exactly as in Python. -/
def pySplit (sep : Char) : List Char → List (List Char)
  | [] => [[]]
  | c :: cs =>
    if c = sep then [] :: pySplit sep cs
    else
      match pySplit sep cs with
      | chunk :: rest => (c :: chunk) :: rest
      | [] => [[c]]

/-- Python `s.strip()`: drop leading and trailing whitespace. -/
def pyStrip (cs : List Char) : List Char :=
  ((cs.dropWhile pyIsSpace).reverse.dropWhile pyIsSpace).reverse

/-- `pat` is an initial segment of the second character list
(Python `s.startswith(pat)`). -/
def chStarts : List Char → List Char → Bool
  | [], _ => true
  | _ :: _, [] => false
  | a :: pat, b :: rest => a = b && chStarts pat rest

/-- Python `s.startswith(p)`. -/
def strStarts (s p : String) : Bool := chStarts p.data s.data

/-- Source: `separate_list` (read_excel.py lines 18-21).  Returns
`none` for a falsy input, otherwise the `;`-split segments, stripped,
with empty segments dropped. -/
def separate_list (content : PyVal) : Option (List String) :=
  if pyTruthy content then
    match content with
    | .pstr s =>
      some (((pySplit ';' s.data).map (fun cs => String.mk (pyStrip cs))).filter
        (fun t => !(t == "")))
    | _ => some []
  else none

/-- The newspaper-level index: a Python dict keyed by the (truthy)
`Identifier` value of each newspaper row. -/
abbrev NewsIndex := List (PyVal × PyDict)

/-- One iteration of the loop in `transform_newspaper_level_fn`
(read_excel.py lines 28-31): `if ident: newspaper_data[ident] = item`. -/
def insertRow (acc : NewsIndex) (r : PyDict) : NewsIndex :=
  match aget? r "Identifier" with
  | some idv => if pyTruthy idv then acc ++ [(idv, r)] else acc
  | none => acc

/-- Source: `transform_newspaper_level_fn` (read_excel.py lines 24-32). -/
def transform_newspaper_level_fn (rows : List PyDict) : NewsIndex :=
  rows.foldl insertRow []

/-- Source: `retrieve_from_newspaper_level_fn` (read_excel.py lines
35-42): `data = newspaper_data.get(identifier) or \x7b\x7d` (a falsy,
i.e. empty, dict is replaced by the empty dict), then
`value = data.get(field_name)` and
`value if value is not None else "placeholder"`. -/
def retrieve_from_newspaper_level_fn (identifier : PyVal) (field : String)
    (newspaper_data : NewsIndex) : PyVal :=
  let data : PyDict :=
    match aget? newspaper_data identifier with
    | some r => if r.isEmpty then [] else r
    | none => []
  match aget? data field with
  | some v => if v = .pnone then .pstr "placeholder" else v
  | none => .pstr "placeholder"

/-- The literal key of the creator column (read_excel.py lines 82-84):
an initial U+0027 character followed by
`Creator (Alternative Title: Publisher? Most often printed as "Director" or "Owner")`. -/
def creatorKey : String :=
  String.singleton (Char.ofNat 39) ++
    "Creator (Alternative Title: Publisher? Most often printed as \"Director\" or \"Owner\")"

/-- Source: the pure normalization part of `map_item_to_metadata`
(read_excel.py lines 76-123) — everything before the POST to the
mapping service.  Builds the normalized asset dict from one issue row
and the newspaper-level index. -/
def map_item_to_asset (item : PyDict) (newspaper_data : NewsIndex) : PyDict :=
  let a : PyDict := []
  let a := aset a "title" (itemGet item "Issue Title")
  let a := aset a "title_spanish" (itemGet item "Issue Title [SPAN]")
  let a := aset a "alternative_title" (itemGet item "Title Alternative")
  let a := aset a "alternative_title_spanish" (itemGet item "Title Alternative [SPAN]")
  let a := aset a "issue_title" (itemGet item "Issue Title")
  let a := aset a "creator" (itemGet item creatorKey)
  let identifier := (aget? item "Identifier").getD (.pstr "")
  let a := aset a "description"
    (retrieve_from_newspaper_level_fn identifier "Abstract" newspaper_data)
  let a := aset a "description_spanish"
    (retrieve_from_newspaper_level_fn identifier "Abstract [SPAN]" newspaper_data)
  let a := aset a "publicationtype" (itemGet item "Type of Periodical")
  let a := aset a "author_name" (itemGet item "Creator")
  let tags := separate_list (itemGet item "Tags")
  let tags_spanish := separate_list (itemGet item "Tags [SPAN]")
  let a := if optTruthy tags then aset a "tags" (.plist (tags.getD [])) else a
  let a := if optTruthy tags_spanish then aset a "tags_spanish" (.plist (tags_spanish.getD [])) else a
  let a := if pyTruthy (itemGet item "Language") then aset a "language" (itemGet item "Language") else a
  let a := if pyTruthy (itemGet item "Single Dates") then aset a "production_date" (itemGet item "Single Dates") else a
  let a := if pyTruthy (itemGet item "Coverage-Spatial") then aset a "production_place" (itemGet item "Coverage-Spatial") else a
  let a := if pyTruthy (itemGet item "Issue Title [SPAN]") then aset a "issue_title_spanish" (itemGet item "Issue Title [SPAN]") else a
  let a := if pyTruthy (itemGet item "Type of Periodical [SPAN]") then aset a "publicationtype_spanish" (itemGet item "Type of Periodical [SPAN]") else a
  let a := if optTruthy tags || optTruthy tags_spanish then
      aset a "keywords" (.plist ((tags_spanish.getD []) ++ (tags.getD []))) else a
  a

/-- The execution environment of one `process_item` run: the storage
bucket contents and pagination boundary, and the outcome of each remote
call.  `pageSize` is the number of keys a single (unpaginated)
`list_objects_v2` call returns before truncation. -/
structure Env where
  storage : List String
  pageSize : Nat
  mapperOk : Bool
  createOk : Bool
  doi : String
  attachOk : String → Bool

/-- One observable step of the per-record orchestrator:
`normalize` marks the construction of the normalized asset
(read_excel.py lines 76-124), `mapperCall` the POST to the mapping
service (line 126), `listCall` the storage listing (line 159),
`fetchCall` a storage object fetch (line 179), `createCall` the POST to
the importer (line 195), and `attachCall fn doi` the file-upload POST
for the file named `fn` carrying `doi` (line 233). -/
inductive Event where
  | normalize : Event
  | mapperCall : Event
  | listCall : String → Event
  | fetchCall : String → Event
  | createCall : Event
  | attachCall : String → String → Event
deriving DecidableEq, Repr

/-- A single `list_objects_v2(Prefix=pfx, Bucket=...)` call: the keys
of the bucket that start with `pfx`, truncated at the pagination
boundary (the call is not paginated; a continuation token would be
needed for the rest). -/
def list_objects_v2 (env : Env) (pfx : String) : List String :=
  (env.storage.filter (fun k => strStarts k pfx)).take env.pageSize

/-- Source: `get_all_keys` (read_excel.py lines 258-268): a paginator
over the whole bucket, concatenating the keys of every page — hence all
keys of the bucket.  (Defined for reference; the per-record pipeline
never calls it.) -/
def get_all_keys (env : Env) : List String := env.storage

/-- The string inside a string-valued `PyVal`. -/
def pvalStr : PyVal → String
  | .pstr s => s
  | _ => ""

/-- Source: `split_filenames` (read_excel.py lines 141-166).  Returns
the resolved key set (as a deduplicated list) together with the trace
of storage listing calls made. -/
def split_filenames (env : Env) (item : PyDict) : List String × List Event :=
  let pfx := (aget? item "Identifier").getD (.pstr "")
  let filenames := separate_list (itemGet item "Pages")
  if !optTruthy filenames || !pyTruthy pfx then ([], [])
  else
    let p := pvalStr pfx
    ((list_objects_v2 env p).eraseDups, [Event.listCall p])

/-- The resolved file set of one issue record (the first component of
`split_filenames`). -/
def resolvedKeys (env : Env) (item : PyDict) : List String :=
  (split_filenames env item).1

/-- `key.split("/")[-1]` (read_excel.py line 178): the display filename
of a storage key. -/
def fileName (k : String) : String := String.mk ((pySplit '/' k.data).getLastD [])

/-- The attach loop of `process_item` (read_excel.py lines 313-320):
for each file an `add_file` POST carrying the doi; a non-2xx response
raises out of the loop, so no later file is attempted. -/
def attachLoop (ok : String → Bool) (doi : String) : List String → List Event
  | [] => []
  | k :: ks =>
    Event.attachCall (fileName k) doi :: (if ok k then attachLoop ok doi ks else [])

/-- Source: `process_item` (read_excel.py lines 274-320), as the trace
of observable steps: `map_item_to_metadata` (normalize, then the mapper
POST, which aborts the record on a non-2xx response), then
`split_filenames`, then `retrieve_files_for_metadata` (one fetch per
key), then `ingest_metadata` (the create POST, aborting on non-2xx),
then the attach loop. -/
def process_item (env : Env) (item : PyDict) (newspaper_data : NewsIndex) : List Event :=
  [Event.normalize, Event.mapperCall] ++
    (if !env.mapperOk then [] else
      let fk := split_filenames env item
      fk.2 ++ fk.1.map Event.fetchCall ++ [Event.createCall] ++
        (if !env.createOk then [] else attachLoop env.attachOk env.doi fk.1))

/-- The prefix of a key list up to and including the first key whose
attach call fails: exactly the files for which an attach POST is made. -/
def upToFirstFail (ok : String → Bool) : List String → List String
  | [] => []
  | k :: ks => k :: (if ok k then upToFirstFail ok ks else [])

/-- Recognizes file-attach events. -/
def isAttach : Event → Bool
  | .attachCall _ _ => true
  | _ => false

/-- The pipeline stage an event belongs to, in execution order of the
source: normalize, mapper call, listing, fetches, create, attaches. -/
def phase : Event → Nat
  | .normalize => 0
  | .mapperCall => 1
  | .listCall _ => 2
  | .fetchCall _ => 3
  | .createCall => 4
  | .attachCall _ _ => 5

/-- The last newspaper row whose `Identifier` field holds exactly the
value `i` (specification-side description of last-write-wins). -/
def lastWithIdent (i : PyVal) : List PyDict → Option PyDict
  | [] => none
  | r :: rs =>
    match lastWithIdent i rs with
    | some x => some x
    | none => if aget? r "Identifier" = some i then some r else none

/-- The ten asset keys assigned unconditionally by the normalizer. -/
def alwaysKeys : List String :=
  ["title", "title_spanish", "alternative_title", "alternative_title_spanish",
   "issue_title", "creator", "description", "description_spanish",
   "publicationtype", "author_name"]

/-- The eight asset keys assigned only under a truthiness condition. -/
def condKeys : List String :=
  ["tags", "tags_spanish", "language", "production_date", "production_place",
   "issue_title_spanish", "publicationtype_spanish", "keywords"]

/-- The unconditional asset keys that are copied from the issue row
itself, paired with the source column they are copied from. -/
def itemDerivedPairs : List (String × String) :=
  [("title", "Issue Title"), ("title_spanish", "Issue Title [SPAN]"),
   ("alternative_title", "Title Alternative"),
   ("alternative_title_spanish", "Title Alternative [SPAN]"),
   ("issue_title", "Issue Title"), ("creator", creatorKey),
   ("publicationtype", "Type of Periodical"), ("author_name", "Creator")]

/-- A bucket with two page-image keys under the identifier `id`, both
remote services succeeding, and the attach call failing on the first
key. -/
def envA : Env :=
  { storage := ["id/p1.jpg", "id/p2.jpg"]
    pageSize := 2
    mapperOk := true
    createOk := true
    doi := "doi:10.1/ABC"
    attachOk := fun k => !(k == "id/p1.jpg") }

/-- The same bucket with a pagination boundary after the first key. -/
def envB : Env := { envA with pageSize := 1 }

/-- The same bucket with every remote call succeeding. -/
def envD : Env := { envA with attachOk := fun _ => true }

/-- An issue row with two pages under identifier `id`. -/
def itemA : PyDict :=
  [("Identifier", .pstr "id"), ("Pages", .pstr "p1.jpg; p2.jpg")]

/-- A newspaper index whose stored abstract is the empty string: a
falsy, non-`None` field value. -/
def nd4 : NewsIndex := [(.pstr "id", [("Abstract", .pstr "")])]

/-- A newspaper index with an ordinary stored abstract. -/
def nd4b : NewsIndex := [(.pstr "id", [("Abstract", .pstr "hello")])]

/-- Three newspaper rows: two share identifier `a`, one has no
identifier. -/
def rows9 : List PyDict :=
  [[("Identifier", .pstr "a"), ("Abstract", .pstr "first")],
   [("Abstract", .pstr "no ident")],
   [("Identifier", .pstr "a"), ("Abstract", .pstr "second")]]

-- ---------------------------------------------------------------
-- Helper lemmas about the dictionary model
-- ---------------------------------------------------------------

theorem aget?_append_single {κ α : Type} [DecidableEq κ]
    (d : List (κ × α)) (k j : κ) (v : α) :
    aget? (d ++ [(k, v)]) j = if k = j then some v else aget? d j := by
  induction d with
  | nil => simp [aget?]
  | cons p rest ih =>
    obtain ⟨k', v'⟩ := p
    simp only [List.cons_append, aget?, List.append_eq, ih]
    by_cases hkj : k = j
    · simp [hkj]
    · simp [hkj]

theorem aget?_aset (d : PyDict) (k j : String) (v : PyVal) :
    aget? (aset d k v) j = if k = j then some v else aget? d j :=
  aget?_append_single d k j v

theorem aget?_dite (c : Prop) [Decidable c] (a b : PyDict) (j : String) :
    aget? (if c then a else b) j = if c then aget? a j else aget? b j := by
  split <;> rfl

theorem keysOf_aset (d : PyDict) (k : String) (v : PyVal) :
    keysOf (aset d k v) = keysOf d ++ [k] := by
  simp [keysOf, aset]

theorem keysOf_dite (c : Prop) [Decidable c] (a b : PyDict) :
    keysOf (if c then a else b) = if c then keysOf a else keysOf b := by
  split <;> rfl

theorem mem_keysOf_iff (d : PyDict) (k : String) :
    k ∈ keysOf d ↔ (aget? d k).isSome = true := by
  induction d with
  | nil => simp [keysOf, aget?]
  | cons p rest ih =>
    obtain ⟨k', v'⟩ := p
    simp only [keysOf, List.map_cons, List.mem_cons, aget?]
    cases h : aget? rest k with
    | some w =>
      rw [h] at ih
      simp [keysOf] at ih
      simp [ih, keysOf]
    | none =>
      rw [h] at ih
      simp [keysOf] at ih
      rcases eq_or_ne k' k with rfl | hne
      · simp [keysOf]
      · simp [keysOf, ih, hne, Ne.symm hne]

-- ---------------------------------------------------------------
-- Index construction (transform_newspaper_level_fn)
-- ---------------------------------------------------------------

theorem transform_aux (i : PyVal) (hT : pyTruthy i = true) :
    ∀ (rs : List PyDict) (acc : NewsIndex),
      aget? (rs.foldl insertRow acc) i =
        match lastWithIdent i rs with
        | some r => some r
        | none => aget? acc i := by
  intro rs
  induction rs with
  | nil => intro acc; rfl
  | cons r rs ih =>
    intro acc
    simp only [List.foldl_cons, lastWithIdent]
    rw [ih]
    cases h : lastWithIdent i rs with
    | some x => rfl
    | none =>
      unfold insertRow
      cases hid : aget? r "Identifier" with
      | none => simp
      | some idv =>
        by_cases ht : pyTruthy idv = true
        · simp only [ht, if_true, aget?_append_single]
          by_cases hiv : idv = i
          · simp [hiv]
          · simp [hiv]
        · have hiv : idv ≠ i := fun he => ht (he ▸ hT)
          simp [ht, hiv]

theorem transform_aux_falsy (i : PyVal) (hF : pyTruthy i = false) :
    ∀ (rs : List PyDict) (acc : NewsIndex),
      aget? (rs.foldl insertRow acc) i = aget? acc i := by
  intro rs
  induction rs with
  | nil => intro acc; rfl
  | cons r rs ih =>
    intro acc
    simp only [List.foldl_cons]
    rw [ih]
    unfold insertRow
    cases hid : aget? r "Identifier" with
    | none => rfl
    | some idv =>
      by_cases ht : pyTruthy idv = true
      · have hiv : idv ≠ i := fun he => by rw [he, hF] at ht; exact Bool.false_ne_true ht
        simp [ht, aget?_append_single, hiv]
      · simp [ht]

/-- Claim C9: the Publication Context Index build maps each truthy
`Identifier` value to the last row in iteration order carrying it
(last-write-wins), and rows whose `Identifier` is absent or falsy are
never inserted (a falsy identifier is never a key of the index). -/
theorem c9_index_build (rs : List PyDict) (i : PyVal) :
    (pyTruthy i = true →
      aget? (transform_newspaper_level_fn rs) i = lastWithIdent i rs)
  ∧ (pyTruthy i = false →
      aget? (transform_newspaper_level_fn rs) i = none) := by
  constructor
  · intro hT
    rw [transform_newspaper_level_fn, transform_aux i hT rs []]
    cases lastWithIdent i rs <;> rfl
  · intro hF
    rw [transform_newspaper_level_fn, transform_aux_falsy i hF rs []]
    rfl

/-- Witness for C9 on three concrete rows: the duplicate identifier `a`
resolves to the last row carrying it, and the falsy identifier is not a
key. -/
theorem c9_index_build_witness :
    aget? (transform_newspaper_level_fn rows9) (.pstr "a") =
        lastWithIdent (.pstr "a") rows9
  ∧ aget? (transform_newspaper_level_fn rows9) (.pstr "") = none :=
  ⟨(c9_index_build rows9 (.pstr "a")).1 (by decide),
   (c9_index_build rows9 (.pstr "")).2 (by decide)⟩

-- ---------------------------------------------------------------
-- Publication Context Index lookup (C4)
-- ---------------------------------------------------------------

/-- Claim C4 as stated is false: the lookup does not return
`placeholder` whenever the identifier maps to a falsy field value; a
falsy but non-`None` stored value (here the empty string) is returned
as-is. -/
theorem c4_claim_counterexample :
    ¬ (∀ (idv : PyVal) (f : String) (nd : NewsIndex),
        retrieve_from_newspaper_level_fn idv f nd = .pstr "placeholder" ↔
          (aget? nd idv = none ∨
            ∃ r, aget? nd idv = some r ∧
              (aget? r f = none ∨ pyTruthy (itemGet r f) = false))) := by
  intro h
  have h2 := (h (.pstr "id") "Abstract" nd4).mpr
    (Or.inr ⟨[("Abstract", .pstr "")], by decide, Or.inr (by decide)⟩)
  exact absurd h2 (by decide)

/-- Claim C4 amended: the lookup returns `placeholder` exactly when the
identifier is absent from the index, the field is missing from the
stored record, or the stored value is `None`; any other stored value —
falsy values such as the empty string included — is returned as-is. -/
theorem c4_amended (idv : PyVal) (f : String) (nd : NewsIndex) :
    (aget? nd idv = none →
      retrieve_from_newspaper_level_fn idv f nd = .pstr "placeholder")
  ∧ (∀ r, aget? nd idv = some r → aget? r f = none →
      retrieve_from_newspaper_level_fn idv f nd = .pstr "placeholder")
  ∧ (∀ r, aget? nd idv = some r → aget? r f = some .pnone →
      retrieve_from_newspaper_level_fn idv f nd = .pstr "placeholder")
  ∧ (∀ r v, aget? nd idv = some r → aget? r f = some v → v ≠ .pnone →
      retrieve_from_newspaper_level_fn idv f nd = v) := by
  refine ⟨?_, ?_, ?_, ?_⟩
  · intro h
    simp [retrieve_from_newspaper_level_fn, h, aget?]
  · intro r hr hf
    cases r with
    | nil => simp [retrieve_from_newspaper_level_fn, hr, aget?]
    | cons p rest => simp [retrieve_from_newspaper_level_fn, hr, hf]
  · intro r hr hf
    cases r with
    | nil => simp [aget?] at hf
    | cons p rest => simp [retrieve_from_newspaper_level_fn, hr, hf]
  · intro r v hr hf hv
    cases r with
    | nil => simp [aget?] at hf
    | cons p rest => simp [retrieve_from_newspaper_level_fn, hr, hf, hv]

/-- Witness for C4 amended: an absent identifier yields `placeholder`,
and a present non-`None` value is returned unchanged. -/
theorem c4_amended_witness :
    retrieve_from_newspaper_level_fn (.pstr "x") "Abstract" [] = .pstr "placeholder"
  ∧ retrieve_from_newspaper_level_fn (.pstr "id") "Abstract" nd4b = .pstr "hello" :=
  ⟨(c4_amended (.pstr "x") "Abstract" []).1 rfl,
   (c4_amended (.pstr "id") "Abstract" nd4b).2.2.2
     [("Abstract", .pstr "hello")] (.pstr "hello") (by decide) (by decide) (by decide)⟩

-- ---------------------------------------------------------------
-- Asset construction: key structure lemmas
-- ---------------------------------------------------------------

theorem keysOf_nil : keysOf [] = [] := rfl

theorem keysOf_mono_aset (d : PyDict) (k : String) (v : PyVal) :
    keysOf d ⊆ keysOf (aset d k v) := by
  rw [keysOf_aset]
  exact List.subset_append_left _ _

theorem keysOf_mono_ite (c : Prop) [Decidable c] (d : PyDict) (k : String) (v : PyVal) :
    keysOf d ⊆ keysOf (if c then aset d k v else d) := by
  split
  · exact keysOf_mono_aset d k v
  · exact List.Subset.refl _

theorem keysOf_aset_subset (d : PyDict) (k : String) (v : PyVal) (M : List String)
    (hd : keysOf d ⊆ M) (hk : k ∈ M) : keysOf (aset d k v) ⊆ M := by
  rw [keysOf_aset]
  intro x hx
  rcases List.mem_append.mp hx with hx | hx
  · exact hd hx
  · rcases List.mem_singleton.mp hx with rfl
    exact hk

theorem keysOf_ite_aset_subset (c : Prop) [Decidable c] (d : PyDict) (k : String)
    (v : PyVal) (M : List String) (hd : keysOf d ⊆ M) (hk : k ∈ M) :
    keysOf (if c then aset d k v else d) ⊆ M := by
  split
  · exact keysOf_aset_subset d k v M hd hk
  · exact hd

-- ---------------------------------------------------------------
-- C5: short-circuit of the resolver
-- ---------------------------------------------------------------

/-- Claim C5: when the `Pages` field parses to no entries or the
`Identifier` is falsy, the resolver returns the empty set and makes no
storage listing call (the trace component is empty). -/
theorem c5_resolve_short_circuit (env : Env) (item : PyDict)
    (h : strRec item = true)
    (hcase : optTruthy (separate_list (itemGet item "Pages")) = false
      ∨ pyTruthy ((aget? item "Identifier").getD (.pstr "")) = false) :
    split_filenames env item = ([], []) := by
  unfold split_filenames
  rcases hcase with hc | hc <;> simp [hc]

/-- An issue row with an identifier but no `Pages` field. -/
def itemC5 : PyDict := [("Identifier", .pstr "id")]

/-- Witness for C5: a row without pages resolves to the empty set with
no listing call. -/
theorem c5_resolve_short_circuit_witness :
    split_filenames envA itemC5 = ([], []) :=
  c5_resolve_short_circuit envA itemC5 (by decide) (Or.inl (by decide))

-- ---------------------------------------------------------------
-- C6: keywords
-- ---------------------------------------------------------------

theorem aget?_asset_title (item : PyDict) (nd : NewsIndex) :
    aget? (map_item_to_asset item nd) "title" = some (itemGet item "Issue Title") := by
  simp [map_item_to_asset, aget?_dite, aget?_aset, aget?]

theorem aget?_asset_title_spanish (item : PyDict) (nd : NewsIndex) :
    aget? (map_item_to_asset item nd) "title_spanish"
      = some (itemGet item "Issue Title [SPAN]") := by
  simp [map_item_to_asset, aget?_dite, aget?_aset, aget?]

theorem aget?_asset_alternative_title (item : PyDict) (nd : NewsIndex) :
    aget? (map_item_to_asset item nd) "alternative_title"
      = some (itemGet item "Title Alternative") := by
  simp [map_item_to_asset, aget?_dite, aget?_aset, aget?]

theorem aget?_asset_alternative_title_spanish (item : PyDict) (nd : NewsIndex) :
    aget? (map_item_to_asset item nd) "alternative_title_spanish"
      = some (itemGet item "Title Alternative [SPAN]") := by
  simp [map_item_to_asset, aget?_dite, aget?_aset, aget?]

theorem aget?_asset_issue_title (item : PyDict) (nd : NewsIndex) :
    aget? (map_item_to_asset item nd) "issue_title"
      = some (itemGet item "Issue Title") := by
  simp [map_item_to_asset, aget?_dite, aget?_aset, aget?]

theorem aget?_asset_creator (item : PyDict) (nd : NewsIndex) :
    aget? (map_item_to_asset item nd) "creator"
      = some (itemGet item creatorKey) := by
  simp [map_item_to_asset, aget?_dite, aget?_aset, aget?]

theorem aget?_asset_publicationtype (item : PyDict) (nd : NewsIndex) :
    aget? (map_item_to_asset item nd) "publicationtype"
      = some (itemGet item "Type of Periodical") := by
  simp [map_item_to_asset, aget?_dite, aget?_aset, aget?]

theorem aget?_asset_author_name (item : PyDict) (nd : NewsIndex) :
    aget? (map_item_to_asset item nd) "author_name"
      = some (itemGet item "Creator") := by
  simp [map_item_to_asset, aget?_dite, aget?_aset, aget?]

theorem aget?_asset_keywords (item : PyDict) (nd : NewsIndex) :
    aget? (map_item_to_asset item nd) "keywords" =
      (if optTruthy (separate_list (itemGet item "Tags"))
          || optTruthy (separate_list (itemGet item "Tags [SPAN]")) then
        some (.plist ((separate_list (itemGet item "Tags [SPAN]")).getD []
          ++ (separate_list (itemGet item "Tags")).getD []))
      else none) := by
  simp [map_item_to_asset, aget?_dite, aget?_aset, aget?]

/-- Claim C6: the normalized asset contains `keywords` exactly when one
of the two parsed tag lists is non-empty, and its value is the Spanish
tags concatenated before the native tags. -/
theorem c6_keywords (item : PyDict) (nd : NewsIndex) (h : strRec item = true) :
    ((aget? (map_item_to_asset item nd) "keywords").isSome
      = (optTruthy (separate_list (itemGet item "Tags"))
          || optTruthy (separate_list (itemGet item "Tags [SPAN]"))))
  ∧ ((optTruthy (separate_list (itemGet item "Tags"))
        || optTruthy (separate_list (itemGet item "Tags [SPAN]"))) = true →
      aget? (map_item_to_asset item nd) "keywords"
        = some (.plist ((separate_list (itemGet item "Tags [SPAN]")).getD []
            ++ (separate_list (itemGet item "Tags")).getD []))) := by
  constructor
  · rw [aget?_asset_keywords]
    cases hc : (optTruthy (separate_list (itemGet item "Tags"))
        || optTruthy (separate_list (itemGet item "Tags [SPAN]"))) <;> simp [hc]
  · intro hc
    rw [aget?_asset_keywords]
    simp [hc]

/-- An issue row with tags `A; B` and Spanish tags `C`. -/
def itemC6 : PyDict := [("Tags", .pstr "A; B"), ("Tags [SPAN]", .pstr "C")]

/-- Witness for C6, on the example of the spec: tags `A; B` and
Spanish tags `C` yield keywords `C, A, B` (Spanish first). -/
theorem c6_keywords_witness :
    aget? (map_item_to_asset itemC6 []) "keywords" = some (.plist ["C", "A", "B"]) := by
  have h := (c6_keywords itemC6 [] (by decide)).2 (by decide)
  rw [h]
  decide

-- ---------------------------------------------------------------
-- C10: asset key presence
-- ---------------------------------------------------------------

/-- Claim C10: the ten unconditional keys are always present in the
normalized asset; every asset key is one of the eighteen possible keys
(so only the eight conditional keys are ever omitted); and each
item-derived unconditional key holds `None` when its source column is
absent from the row, rather than being omitted. -/
theorem c10_asset_keys (item : PyDict) (nd : NewsIndex) (h : strRec item = true) :
    alwaysKeys ⊆ keysOf (map_item_to_asset item nd)
  ∧ keysOf (map_item_to_asset item nd) ⊆ alwaysKeys ++ condKeys
  ∧ ∀ p ∈ itemDerivedPairs, aget? item p.2 = none →
      aget? (map_item_to_asset item nd) p.1 = some .pnone := by
  refine ⟨?_, ?_, ?_⟩
  · simp only [map_item_to_asset]
    repeat refine List.Subset.trans ?_ (keysOf_mono_ite _ _ _ _)
    simp only [keysOf_aset, keysOf_nil]
    decide
  · simp only [map_item_to_asset]
    repeat
      first
      | refine keysOf_ite_aset_subset _ _ _ _ _ ?_ (by decide)
      | refine keysOf_aset_subset _ _ _ _ ?_ (by decide)
    simp [keysOf]
  · intro p hp hnone
    fin_cases hp <;>
      simp_all [aget?_asset_title, aget?_asset_title_spanish,
        aget?_asset_alternative_title, aget?_asset_alternative_title_spanish,
        aget?_asset_issue_title, aget?_asset_creator,
        aget?_asset_publicationtype, aget?_asset_author_name, itemGet]

/-- Witness for C10: on a row with no title columns, `description` is
present and `title` is present with value `None`. -/
theorem c10_asset_keys_witness :
    "description" ∈ keysOf (map_item_to_asset itemA [])
  ∧ aget? (map_item_to_asset itemA []) "title" = some .pnone :=
  ⟨(c10_asset_keys itemA [] (by decide)).1 (by decide),
   (c10_asset_keys itemA [] (by decide)).2.2 ("title", "Issue Title")
     (by decide) (by decide)⟩

-- ---------------------------------------------------------------
-- Trace structure of the per-record orchestrator
-- ---------------------------------------------------------------

theorem process_item_eq (env : Env) (item : PyDict) (nd : NewsIndex)
    (hm : env.mapperOk = true) (hc : env.createOk = true) :
    process_item env item nd =
      [Event.normalize, Event.mapperCall] ++ (split_filenames env item).2
        ++ ((split_filenames env item).1).map Event.fetchCall
        ++ [Event.createCall]
        ++ attachLoop env.attachOk env.doi (split_filenames env item).1 := by
  simp [process_item, hm, hc]

theorem process_item_eq_mapper_fail (env : Env) (item : PyDict) (nd : NewsIndex)
    (hm : env.mapperOk = false) :
    process_item env item nd = [Event.normalize, Event.mapperCall] := by
  simp [process_item, hm]

theorem process_item_eq_create_fail (env : Env) (item : PyDict) (nd : NewsIndex)
    (hm : env.mapperOk = true) (hc : env.createOk = false) :
    process_item env item nd =
      [Event.normalize, Event.mapperCall] ++ (split_filenames env item).2
        ++ ((split_filenames env item).1).map Event.fetchCall
        ++ [Event.createCall] := by
  simp [process_item, hm, hc]

theorem split_filenames_snd (env : Env) (item : PyDict) :
    (split_filenames env item).2 = []
  ∨ ∃ p, (split_filenames env item).2 = [Event.listCall p] := by
  simp only [split_filenames]
  split
  · exact Or.inl rfl
  · exact Or.inr ⟨_, rfl⟩

theorem phase_split_events (env : Env) (item : PyDict) :
    ∀ e ∈ (split_filenames env item).2, phase e = 2 := by
  rcases split_filenames_snd env item with h | ⟨p, h⟩ <;> rw [h]
  · intro e he
    simp at he
  · intro e he
    rcases List.mem_singleton.mp he with rfl
    rfl

theorem phase_fetch_events (ks : List String) :
    ∀ e ∈ ks.map Event.fetchCall, phase e = 3 := by
  intro e he
  rcases List.mem_map.mp he with ⟨k, _, rfl⟩
  rfl

theorem phase_attachLoop (ok : String → Bool) (d : String) (ks : List String) :
    ∀ e ∈ attachLoop ok d ks, phase e = 5 := by
  induction ks with
  | nil =>
    intro e he
    simp [attachLoop] at he
  | cons k ks ih =>
    intro e he
    simp only [attachLoop, List.mem_cons] at he
    rcases he with rfl | he
    · rfl
    · split at he
      · exact ih e he
      · simp at he

theorem filter_attach_split_events (env : Env) (item : PyDict) :
    ((split_filenames env item).2).filter isAttach = [] := by
  rcases split_filenames_snd env item with h | ⟨p, h⟩ <;> rw [h] <;> rfl

theorem filter_attach_fetch (ks : List String) :
    (ks.map Event.fetchCall).filter isAttach = [] := by
  induction ks with
  | nil => rfl
  | cons k ks ih => simp [isAttach, ih]

theorem filter_attach_attachLoop (ok : String → Bool) (d : String) (ks : List String) :
    (attachLoop ok d ks).filter isAttach = attachLoop ok d ks := by
  induction ks with
  | nil => rfl
  | cons k ks ih => by_cases h : ok k <;> simp [attachLoop, isAttach, h, ih]

theorem attachLoop_eq_map (ok : String → Bool) (d : String) (ks : List String) :
    attachLoop ok d ks
      = (upToFirstFail ok ks).map (fun k => Event.attachCall (fileName k) d) := by
  induction ks with
  | nil => rfl
  | cons k ks ih => by_cases h : ok k <;> simp [attachLoop, upToFirstFail, h, ih]

theorem upToFirstFail_all (ok : String → Bool) (ks : List String)
    (h : ∀ k ∈ ks, ok k = true) : upToFirstFail ok ks = ks := by
  induction ks with
  | nil => rfl
  | cons k ks ih =>
    simp [upToFirstFail, h k (List.mem_cons_self k ks),
      ih (fun x hx => h x (List.mem_cons_of_mem k hx))]

theorem filter_attach_map_attach (d : String) (ks : List String) :
    (ks.map (fun k => Event.attachCall (fileName k) d)).filter isAttach
      = ks.map (fun k => Event.attachCall (fileName k) d) := by
  induction ks with
  | nil => rfl
  | cons k ks ih => simp [isAttach, ih]

theorem process_item_attach_filter (env : Env) (item : PyDict) (nd : NewsIndex)
    (hm : env.mapperOk = true) (hc : env.createOk = true) :
    (process_item env item nd).filter isAttach
      = (upToFirstFail env.attachOk (resolvedKeys env item)).map
          (fun k => Event.attachCall (fileName k) env.doi) := by
  rw [process_item_eq env item nd hm hc]
  simp only [List.filter_append, filter_attach_split_events, filter_attach_fetch,
    attachLoop_eq_map, filter_attach_map_attach, resolvedKeys]
  simp [isAttach]

theorem createCall_mem_process (env : Env) (item : PyDict) (nd : NewsIndex)
    (hm : env.mapperOk = true) : Event.createCall ∈ process_item env item nd := by
  cases hc : env.createOk
  · rw [process_item_eq_create_fail env item nd hm hc]
    simp
  · rw [process_item_eq env item nd hm hc]
    simp

theorem pairwise_phase_const (c : Nat) {l : List Event}
    (h : ∀ e ∈ l, phase e = c) :
    List.Pairwise (fun a b => phase a ≤ phase b) l := by
  induction l with
  | nil => exact List.Pairwise.nil
  | cons x xs ih =>
    refine List.Pairwise.cons (fun b hb => ?_) (ih (fun e he => h e (List.mem_cons_of_mem x he)))
    rw [h x (List.mem_cons_self x xs), h b (List.mem_cons_of_mem x hb)]

theorem pairwise_phase_append (c : Nat) {l₁ l₂ : List Event}
    (h₁ : List.Pairwise (fun a b => phase a ≤ phase b) l₁)
    (h₂ : List.Pairwise (fun a b => phase a ≤ phase b) l₂)
    (hb₁ : ∀ e ∈ l₁, phase e ≤ c) (hb₂ : ∀ e ∈ l₂, c ≤ phase e) :
    List.Pairwise (fun a b => phase a ≤ phase b) (l₁ ++ l₂) :=
  List.pairwise_append.mpr ⟨h₁, h₂, fun a ha b hb => le_trans (hb₁ a ha) (hb₂ b hb)⟩

theorem pairwise_phase_process (env : Env) (item : PyDict) (nd : NewsIndex) :
    List.Pairwise (fun a b => phase a ≤ phase b) (process_item env item nd) := by
  have hL := phase_split_events env item
  have hF := phase_fetch_events (split_filenames env item).1
  have hA := phase_attachLoop env.attachOk env.doi (split_filenames env item).1
  have pLF : List.Pairwise (fun a b => phase a ≤ phase b)
      ((split_filenames env item).2 ++ ((split_filenames env item).1).map Event.fetchCall) :=
    pairwise_phase_append 2 (pairwise_phase_const 2 hL) (pairwise_phase_const 3 hF)
      (fun e he => le_of_eq (hL e he)) (fun e he => by rw [hF e he]; omega)
  have bLF : ∀ e ∈ (split_filenames env item).2
      ++ ((split_filenames env item).1).map Event.fetchCall, phase e ≤ 4 := by
    intro e he
    rcases List.mem_append.mp he with he | he
    · rw [hL e he]; omega
    · rw [hF e he]; omega
  have pLFc : List.Pairwise (fun a b => phase a ≤ phase b)
      ((split_filenames env item).2 ++ ((split_filenames env item).1).map Event.fetchCall
        ++ [Event.createCall]) :=
    pairwise_phase_append 4 pLF (by decide) bLF (by decide)
  have bLFc : ∀ e ∈ (split_filenames env item).2
      ++ ((split_filenames env item).1).map Event.fetchCall ++ [Event.createCall],
      phase e ≤ 4 := by
    intro e he
    rcases List.mem_append.mp he with he | he
    · exact bLF e he
    · rcases List.mem_singleton.mp he with rfl
      decide
  cases hm : env.mapperOk
  · rw [process_item_eq_mapper_fail env item nd hm]
    decide
  · cases hc : env.createOk
    · rw [process_item_eq_create_fail env item nd hm hc]
      rw [List.append_assoc, List.append_assoc]
      refine pairwise_phase_append 1 (by decide) ?_ (by decide) ?_
      · rw [← List.append_assoc]
        exact pLFc
      · intro e he
        rw [← List.append_assoc] at he
        have := bLFc e he
        rcases List.mem_append.mp he with he2 | he2
        · rcases List.mem_append.mp he2 with he3 | he3
          · rw [hL e he3]; omega
          · rw [hF e he3]; omega
        · rcases List.mem_singleton.mp he2 with rfl
          decide
    · rw [process_item_eq env item nd hm hc]
      rw [List.append_assoc, List.append_assoc, List.append_assoc]
      refine pairwise_phase_append 1 (by decide) ?_ (by decide) ?_
      · rw [← List.append_assoc, ← List.append_assoc]
        refine pairwise_phase_append 4 pLFc (pairwise_phase_const 5 hA) bLFc ?_
        intro e he
        rw [hA e he]; omega
      · intro e he
        rw [← List.append_assoc, ← List.append_assoc] at he
        rcases List.mem_append.mp he with he2 | he2
        · rcases List.mem_append.mp he2 with he3 | he3
          · rcases List.mem_append.mp he3 with he4 | he4
            · rw [hL e he4]; omega
            · rw [hF e he4]; omega
          · rcases List.mem_singleton.mp he3 with rfl
            decide
        · rw [hA e he2]; omega

-- ---------------------------------------------------------------
-- C1: attach failure and subsequent files
-- ---------------------------------------------------------------

/-- Claim C1 as stated is false: with two resolved files, both remote
creation calls succeeding and the attach call failing on the first
file, the orchestrator does not attempt the attach call for the second
file (the exception aborts the loop). -/
theorem c1_claim_counterexample :
    ¬ (∀ (env : Env) (item : PyDict) (nd : NewsIndex),
        strRec item = true → env.mapperOk = true → env.createOk = true →
        2 ≤ (resolvedKeys env item).length →
        ∀ k ∈ resolvedKeys env item,
          Event.attachCall (fileName k) env.doi ∈ process_item env item nd) := by
  intro h
  have h2 := h envA itemA [] (by decide) rfl rfl (by decide) "id/p2.jpg" (by decide)
  exact absurd h2 (by decide)

/-- Claim C1 amended: when the mapper and create calls succeed, the
attach calls are issued sequentially and stop at the first failing
file — the files before and including the first failure each get
exactly one attach call carrying the persistent identifier, later
files get none; the already-created record is not rolled back (the
create call remains in the trace). -/
theorem c1_amended (env : Env) (item : PyDict) (nd : NewsIndex)
    (h : strRec item = true) (hm : env.mapperOk = true) (hc : env.createOk = true) :
    (process_item env item nd).filter isAttach
      = (upToFirstFail env.attachOk (resolvedKeys env item)).map
          (fun k => Event.attachCall (fileName k) env.doi)
  ∧ Event.createCall ∈ process_item env item nd :=
  ⟨process_item_attach_filter env item nd hm hc,
   createCall_mem_process env item nd hm⟩

/-- Witness for C1 amended at a concrete failing environment. -/
theorem c1_amended_witness :
    (process_item envA itemA []).filter isAttach
      = (upToFirstFail envA.attachOk (resolvedKeys envA itemA)).map
          (fun k => Event.attachCall (fileName k) envA.doi)
  ∧ Event.createCall ∈ process_item envA itemA [] :=
  c1_amended envA itemA [] (by decide) rfl rfl

-- ---------------------------------------------------------------
-- C2: pagination of the key resolution
-- ---------------------------------------------------------------

/-- Claim C2 as stated is false: with a pagination boundary after the
first key, the second key under the identifier is missed — the
resolver reads a single unpaginated listing response. -/
theorem c2_claim_counterexample :
    ¬ (∀ (env : Env) (item : PyDict) (p : String),
        strRec item = true →
        aget? item "Identifier" = some (.pstr p) →
        pyTruthy (.pstr p) = true →
        optTruthy (separate_list (itemGet item "Pages")) = true →
        ∀ k ∈ env.storage, strStarts k p = true → k ∈ resolvedKeys env item) := by
  intro h
  have h2 := h envB itemA "id" (by decide) (by decide) (by decide) (by decide)
    "id/p2.jpg" (by decide) (by decide)
  exact absurd h2 (by decide)

/-- Claim C2 amended: the resolver collects (deduplicated) exactly the
keys of the single first listing page; when all matching keys fit
within one page this is every storage key beginning with the
identifier, otherwise keys beyond the pagination boundary are missed. -/
theorem c2_amended (env : Env) (item : PyDict) (p : String)
    (h : strRec item = true)
    (hid : aget? item "Identifier" = some (.pstr p))
    (hp : pyTruthy (.pstr p) = true)
    (hpages : optTruthy (separate_list (itemGet item "Pages")) = true)
    (hfit : (env.storage.filter (fun k => strStarts k p)).length ≤ env.pageSize) :
    resolvedKeys env item
      = (env.storage.filter (fun k => strStarts k p)).eraseDups := by
  simp only [resolvedKeys, split_filenames, hid, Option.getD_some, hpages, hp,
    Bool.not_true, Bool.or_self, Bool.false_or, if_false, list_objects_v2, pvalStr]
  rw [List.take_of_length_le hfit]
  rfl

/-- Witness for C2 amended: with both keys inside one page, the
resolved set is all keys under the identifier. -/
theorem c2_amended_witness :
    resolvedKeys envA itemA
      = (envA.storage.filter (fun k => strStarts k "id")).eraseDups :=
  c2_amended envA itemA "id" (by decide) (by decide) (by decide) (by decide) (by decide)

-- ---------------------------------------------------------------
-- C3: step order of the orchestrator
-- ---------------------------------------------------------------

/-- Claim C3 as stated is false: in the trace of a successful record,
the mapper call (position 1) precedes the storage listing call
(position 2), so file resolution does not happen before the
mapping-service call. -/
theorem c3_claim_counterexample :
    ¬ (∀ (env : Env) (item : PyDict) (nd : NewsIndex) (i j : Nat) (p : String),
        strRec item = true →
        (process_item env item nd).get? i = some (Event.listCall p) →
        (process_item env item nd).get? j = some Event.mapperCall →
        i < j) := by
  intro h
  have h2 := h envA itemA [] 2 1 "id" (by decide) (by decide) (by decide)
  exact absurd h2 (by decide)

/-- Claim C3 amended: the per-record steps execute in the order
normalize, mapping-service call, resolve (listing), fetch, create,
attach — the trace is sorted by pipeline stage, and it always begins
with the normalization followed immediately by the mapping call; in
particular file resolution and fetching happen after the
mapping-service call, not before it. -/
theorem c3_amended (env : Env) (item : PyDict) (nd : NewsIndex)
    (h : strRec item = true) :
    List.Pairwise (fun a b => phase a ≤ phase b) (process_item env item nd)
  ∧ (process_item env item nd).take 2 = [Event.normalize, Event.mapperCall] :=
  ⟨pairwise_phase_process env item nd, rfl⟩

/-- Witness for C3 amended at a concrete successful environment. -/
theorem c3_amended_witness :
    List.Pairwise (fun a b => phase a ≤ phase b) (process_item envA itemA [])
  ∧ (process_item envA itemA []).take 2 = [Event.normalize, Event.mapperCall] :=
  c3_amended envA itemA [] (by decide)

-- ---------------------------------------------------------------
-- C7: mapper failure prevents record creation
-- ---------------------------------------------------------------

/-- A failing mapping service. -/
def envC : Env := { envA with mapperOk := false }

/-- Claim C7: when the mapping-service call fails, the create-record
call is never made for that record. -/
theorem c7_mapper_failure_no_create (env : Env) (item : PyDict) (nd : NewsIndex)
    (h : strRec item = true) (hm : env.mapperOk = false) :
    Event.createCall ∉ process_item env item nd := by
  rw [process_item_eq_mapper_fail env item nd hm]
  decide

/-- Witness for C7 at a concrete failing mapper. -/
theorem c7_mapper_failure_no_create_witness :
    Event.createCall ∉ process_item envC itemA [] :=
  c7_mapper_failure_no_create envC itemA [] (by decide) rfl

-- ---------------------------------------------------------------
-- C8: one attach per resolved file, carrying the doi
-- ---------------------------------------------------------------

/-- Claim C8 as stated is false: mapper and create success alone do
not guarantee one attach call per resolved file — an attach failure
stops the loop before later files. -/
theorem c8_claim_counterexample :
    ¬ (∀ (env : Env) (item : PyDict) (nd : NewsIndex),
        strRec item = true → env.mapperOk = true → env.createOk = true →
        (process_item env item nd).filter isAttach
          = (resolvedKeys env item).map
              (fun k => Event.attachCall (fileName k) env.doi)) := by
  intro h
  have h2 := h envA itemA [] (by decide) rfl rfl
  exact absurd h2 (by decide)

/-- Claim C8 amended: when the mapper and create calls succeed and
every attach call succeeds, the orchestrator issues exactly one attach
call per file of the resolved list, each carrying the persistent
identifier returned by the create call. -/
theorem c8_amended (env : Env) (item : PyDict) (nd : NewsIndex)
    (h : strRec item = true) (hm : env.mapperOk = true) (hc : env.createOk = true)
    (ha : ∀ k ∈ resolvedKeys env item, env.attachOk k = true) :
    (process_item env item nd).filter isAttach
      = (resolvedKeys env item).map (fun k => Event.attachCall (fileName k) env.doi) := by
  rw [process_item_attach_filter env item nd hm hc,
    upToFirstFail_all env.attachOk (resolvedKeys env item) ha]

/-- Witness for C8 amended: with every call succeeding, both resolved
files are attached once each, carrying the doi. -/
theorem c8_amended_witness :
    (process_item envD itemA []).filter isAttach
      = (resolvedKeys envD itemA).map
          (fun k => Event.attachCall (fileName k) envD.doi) :=
  c8_amended envD itemA [] (by decide) rfl rfl (by decide)

end Houston
